import Mathlib

/-!
Verification of the Document-Scanner extraction pipeline.

The Python sources under `backend/app` are shallowly embedded below:
dictionaries become association lists (`Dct`) with Python-dict lookup
and update semantics, strings are Lean `String`s with ASCII models of
Python's `str.lower`, `str.upper`, `str.strip` and `str.split`, and
floating-point confidence scores are modelled as exact rationals.
-/

namespace DocScanner

/-! ## Python string primitives (ASCII model) -/

/-- Characters Python's `str.strip()` removes: space, tab, newline,
carriage return, vertical tab, form feed (given by code point). -/
def pyIsSpaceChar (c : Char) : Bool :=
  decide (c.toNat = 32 ∨ c.toNat = 9 ∨ c.toNat = 10 ∨ c.toNat = 13
    ∨ c.toNat = 11 ∨ c.toNat = 12)

/-- `str.strip()` on the character list. -/
def pyStripList (l : List Char) : List Char :=
  ((l.dropWhile pyIsSpaceChar).reverse.dropWhile pyIsSpaceChar).reverse

/-- Python `s.strip()`. -/
def pyStrip (s : String) : String := String.mk (pyStripList s.toList)

/-- Python `s.lower()` (ASCII range). -/
def pyLower (s : String) : String := String.mk (s.toList.map Char.toLower)

/-- Python `s.upper()` (ASCII range). -/
def pyUpper (s : String) : String := String.mk (s.toList.map Char.toUpper)

/-- Python `c in s` for a single character. -/
def pyContainsChar (s : String) (c : Char) : Bool := s.toList.contains c

/-- Substring search on character lists. -/
def pyInAux (n : List Char) : List Char → Bool
  | [] => n.isEmpty
  | c :: cs => List.isPrefixOf n (c :: cs) || pyInAux n cs

/-- Python `needle in hay` substring test. -/
def pyIn (needle hay : String) : Bool := pyInAux needle.toList hay.toList

/-- Auxiliary for `s.split(' ', 1)`: split a character list at the first
space, returning the two sides when a space exists. -/
def splitOnceAux : List Char → Option (List Char × List Char)
  | [] => none
  | c :: cs =>
    if c == ' ' then some ([], cs)
    else (splitOnceAux cs).map (fun p => (c :: p.1, p.2))

/-- Python `s.split(' ', 1)` restricted to the case it produced two
parts: `some (before, after)` when `s` contains a space, else `none`. -/
def pySplitOnce (s : String) : Option (String × String) :=
  (splitOnceAux s.toList).map (fun p => (String.mk p.1, String.mk p.2))

/-! ## Python dictionaries as association lists -/

/-- A Python `dict[str, str]` value, in insertion order. -/
abbrev Dct := List (String × String)

/-- `d.get(k)` / `d[k]`: first binding of the key. -/
def dget (d : Dct) (k : String) : Option String :=
  (d.find? (fun p => p.1 == k)).map (fun p => p.2)

/-- `k in d`. -/
def dmem (d : Dct) (k : String) : Bool := d.any (fun p => p.1 == k)

/-- `d[k] = v`: replace the value in place when the key exists,
otherwise append the new binding (Python dict insertion order). -/
def dset : Dct → String → String → Dct
  | [], k, v => [(k, v)]
  | p :: rest, k, v => if p.1 == k then (k, v) :: rest else p :: dset rest k v

/-- `del d[k]` (also removing any shadowed duplicates the model allows). -/
def dremove (d : Dct) (k : String) : Dct := d.filter (fun p => p.1 != k)

@[simp] theorem dget_nil (k : String) : dget [] k = none := rfl

theorem dget_cons (p : String × String) (d : Dct) (k : String) :
    dget (p :: d) k = if p.1 == k then some p.2 else dget d k := by
  simp only [dget, List.find?]
  cases h : p.1 == k <;> simp [h]

theorem dget_dset_self (d : Dct) (k v : String) : dget (dset d k v) k = some v := by
  induction d with
  | nil => simp [dset, dget_cons]
  | cons p rest ih =>
    simp only [dset]
    by_cases h : p.1 = k
    · simp [h, dget_cons]
    · have hb : (p.1 == k) = false := by simp [h]
      simp [hb, dget_cons, ih]

theorem dget_dset_ne (d : Dct) (k v k' : String) (h : k' ≠ k) :
    dget (dset d k v) k' = dget d k' := by
  induction d with
  | nil => simp [dset, dget_cons, h, Ne.symm h]
  | cons p rest ih =>
    simp only [dset]
    by_cases hpk : p.1 = k
    · have : (k == k') = false := by simp [Ne.symm h]
      simp [hpk, dget_cons, this]
    · have hb : (p.1 == k) = false := by simp [hpk]
      simp [hb, dget_cons, ih]

theorem dmem_eq_isSome (d : Dct) (k : String) : dmem d k = (dget d k).isSome := by
  induction d with
  | nil => rfl
  | cons p rest ih =>
    simp only [dmem, List.any, dget_cons]
    cases h : p.1 == k
    · simpa [h, dmem] using ih
    · simp [h]

theorem dget_dremove_self (d : Dct) (k : String) : dget (dremove d k) k = none := by
  induction d with
  | nil => rfl
  | cons p rest ih =>
    simp only [dremove, List.filter]
    by_cases h : p.1 = k
    · simpa [h, dremove] using ih
    · have hb : (p.1 != k) = true := by simp [h]
      have hb2 : (p.1 == k) = false := by simp [h]
      simpa [hb, dget_cons, hb2, dremove] using ih

theorem dget_dremove_ne (d : Dct) (k k' : String) (h : k' ≠ k) :
    dget (dremove d k) k' = dget d k' := by
  induction d with
  | nil => rfl
  | cons p rest ih =>
    simp only [dremove, List.filter]
    by_cases hpk : p.1 = k
    · have hb : (p.1 != k) = false := by simp [hpk]
      have : (p.1 == k') = false := by simp [hpk, Ne.symm h]
      simpa [hb, dget_cons, this, dremove] using ih
    · have hb : (p.1 != k) = true := by simp [hpk]
      simp only [hb, dget_cons]
      cases hq : p.1 == k'
      · simpa [dremove] using ih
      · simp

theorem mem_dset (d : Dct) (k v : String) (pr : String × String)
    (h : pr ∈ dset d k v) : pr ∈ d ∨ pr = (k, v) := by
  induction d with
  | nil => simp [dset] at h; simp [h]
  | cons p rest ih =>
    simp only [dset] at h
    by_cases hpk : p.1 = k
    · simp only [hpk, beq_self_eq_true, if_true, List.mem_cons] at h
      rcases h with h | h
      · right; exact h
      · left; exact List.mem_cons_of_mem _ h
    · have hb : (p.1 == k) = false := by simp [hpk]
      simp only [hb, Bool.false_eq_true, if_false, List.mem_cons] at h
      rcases h with h | h
      · left; simp [h]
      · rcases ih h with h' | h'
        · left; exact List.mem_cons_of_mem _ h'
        · right; exact h'

theorem dget_some_mem (d : Dct) (k v : String) (h : dget d k = some v) : (k, v) ∈ d := by
  induction d with
  | nil => simp [dget] at h
  | cons p rest ih =>
    rw [dget_cons] at h
    by_cases hpk : p.1 = k
    · have hb : (p.1 == k) = true := by simp [hpk]
      simp only [hb, if_true, Option.some_inj] at h
      have hp : p = (k, v) := by cases p; simp_all
      rw [← hp]
      exact List.mem_cons_self _ _
    · have hb : (p.1 == k) = false := by simp [hpk]
      simp only [hb, Bool.false_eq_true, if_false] at h
      exact List.mem_cons_of_mem _ (ih h)

/-! ## `backend/app/utils/field_mapping.py` -/

/-- Apostrophe character (written numerically). -/
def apos : Char := Char.ofNat 39

/-- The human-readable driver's-license label written by
`standardize_field_names`. -/
def driversLicenseLabel : String := "Driver" ++ String.mk [apos] ++ "s License"

/-- `REQUIRED_FIELDS` from `field_mapping.py` (the Python sets written as
lists in the order of the source literals; set iteration order is
irrelevant to the properties proved below). -/
def REQUIRED_FIELDS (doc_type : String) : List String :=
  if doc_type == "passport" then
    ["full_name", "date_of_birth", "country", "issue_date", "expiration_date"]
  else if doc_type == "drivers_license" then
    ["license_number", "date_of_birth", "issue_date", "expiration_date", "first_name", "last_name"]
  else if doc_type == "ead_card" then
    ["card_number", "category", "first_name", "last_name", "card_expires_date"]
  else []

/-- `FIELD_ALIASES` from `field_mapping.py`, in source order.  The
commented-out `expiration_date -> card_expires_date` entry of the source
is likewise absent here. -/
def FIELD_ALIASES : Dct :=
  [("passport_number", "document_number"),
   ("passport_no", "document_number"),
   ("passportno", "document_number"),
   ("surname", "last_name"),
   ("given_names", "first_name"),
   ("given_name", "first_name"),
   ("name", "full_name"),
   ("country_of_issuance", "nationality"),
   ("date_of_expiry", "expiration_date"),
   ("expires", "expiration_date"),
   ("date_of_issue", "issue_date"),
   ("birthdate", "date_of_birth"),
   ("birth_date", "date_of_birth"),
   ("dob", "date_of_birth"),
   ("license_no", "license_number"),
   ("dl_number", "license_number"),
   ("dl", "license_number"),
   ("driver_license_number", "license_number"),
   ("drivers_license_number", "license_number"),
   ("operator_license", "license_number"),
   ("document_number", "license_number"),
   ("fname", "first_name"),
   ("lname", "last_name"),
   ("issue", "issue_date"),
   ("expiry", "expiration_date"),
   ("expiration", "expiration_date"),
   ("expires_on", "expiration_date"),
   ("expires_date", "expiration_date"),
   ("card_expires_date", "expiration_date"),
   ("issued_on", "issue_date"),
   ("ead_number", "card_number"),
   ("card#", "card_number"),
   ("card_#", "card_number"),
   ("authorization_number", "card_number"),
   ("employment_authorization_number", "card_number"),
   ("valid_until", "card_expires_date"),
   ("first", "first_name"),
   ("last", "last_name"),
   ("ead_category", "category"),
   ("class", "category")]

/-- `FIELD_ALIASES.get(name, name)`. -/
def aliasLookup (name : String) : String := (dget FIELD_ALIASES name).getD name

/-- The permissive document-type normalisation shared by
`standardize_field_names` and `validate_required_fields`
(`field_mapping.py` lines 90-95 / 181-186): unknown spellings are left
unchanged. -/
def normDocType (doc_type : String) : String :=
  if ["driver", "drivers_license", "driver_license", "dl", "driver license"].contains (pyLower doc_type) then
    "drivers_license"
  else if ["passport", "pasport", "p"].contains (pyLower doc_type) then
    "passport"
  else if ["ead", "employment_authorization", "ead_card"].contains (pyLower doc_type) then
    "ead_card"
  else doc_type

/-- The `document_type` resolution of `standardize_field_names`
(lines 97-119): a raw value of exactly `"P"` forces the passport label,
otherwise the label is derived from the (normalised) document type, and
for unknown types the raw value (or the type string itself) is kept. -/
def initDocType (extracted_fields : Dct) (t : String) : Dct :=
  match dget extracted_fields "document_type" with
  | some v =>
    if v == "P" then [("document_type", "Passport")]
    else if t == "passport" then [("document_type", "Passport")]
    else if t == "drivers_license" then [("document_type", driversLicenseLabel)]
    else if t == "ead_card" then [("document_type", "EAD Card")]
    else [("document_type", v)]
  | none =>
    if t == "passport" then [("document_type", "Passport")]
    else if t == "drivers_license" then [("document_type", driversLicenseLabel)]
    else if t == "ead_card" then [("document_type", "EAD Card")]
    else [("document_type", t)]

/-- `d.setdefault(k, v)`-style update used by the `full_name` split and
the nationality back-fill: only bind the key when it is absent. -/
def setIfAbsent (d : Dct) (k v : String) : Dct :=
  if dmem d k then d else dset d k v

/-- The standardized field name chosen by the if/elif chain of
`standardize_field_names` (lines 130-144): type-conditional for
`expiration_date`, `country` kept as-is for passports, otherwise the
alias table with the lower-cased name as default. -/
def stdName (t fl : String) : String :=
  if fl == "expiration_date" then
    (if t == "ead_card" then "card_expires_date" else "expiration_date")
  else if fl == "country" && t == "passport" then "country"
  else aliasLookup fl

/-- The nationality back-fill performed inside the passport `country`
branch (lines 139-141) before the standardized binding is written. -/
def stdPre (t : String) (std : Dct) (fl value : String) : Dct :=
  if fl == "expiration_date" then std
  else if fl == "country" && t == "passport" then setIfAbsent std "nationality" value
  else std

/-- The heuristic `full_name` split (lines 148-155): when the
standardized name is `full_name`, the value contains a space and is not
`NOT_FOUND`, split the *stripped* value at its first space and fill
`first_name`/`last_name` when absent. -/
def applyNameSplit (sname : String) (std2 : Dct) (value : String) : Dct :=
  if sname == "full_name" && pyContainsChar value ' ' && !(value == "NOT_FOUND") then
    match pySplitOnce (pyStrip value) with
    | some p => setIfAbsent (setIfAbsent std2 "first_name" p.1) "last_name" p.2
    | none => std2
  else std2

/-- One iteration of the field loop of `standardize_field_names`
(lines 121-155). -/
def stdStep (t : String) (std : Dct) (fv : String × String) : Dct :=
  if fv.1 == "document_type" then std
  else
    applyNameSplit (stdName t (pyLower fv.1))
      (dset (stdPre t std (pyLower fv.1) fv.2) (stdName t (pyLower fv.1)) fv.2) fv.2

/-- `standardize_field_names` up to (but excluding) the passport
`issue_date` back-fill: the "after alias resolution" state. -/
def standardizeMid (extracted_fields : Dct) (doc_type : String) : Dct :=
  let t := normDocType doc_type
  extracted_fields.foldl (stdStep t) (initDocType extracted_fields t)

/-- The passport special case of `standardize_field_names`
(lines 157-164): always materialise `issue_date`, falling back to
`date_of_issue` and then to the literal `"Unknown"`. -/
def passportIssueDateFix (t : String) (std : Dct) : Dct :=
  if t == "passport" && (!(dmem std "issue_date") || dget std "issue_date" == some "NOT_FOUND") then
    match dget std "date_of_issue" with
    | some w => if !(w == "NOT_FOUND") then dset std "issue_date" w else dset std "issue_date" "Unknown"
    | none => dset std "issue_date" "Unknown"
  else std

/-- `standardize_field_names(extracted_fields, doc_type)`. -/
def standardize_field_names (extracted_fields : Dct) (doc_type : String) : Dct :=
  passportIssueDateFix (normDocType doc_type) (standardizeMid extracted_fields doc_type)

/-- The per-field test of `validate_required_fields` (lines 200-207):
`true` when the required field is counted missing. -/
def missingPred (fields : Dct) (t : String) (f : String) : Bool :=
  !(f == "issue_date" && t == "passport" && dget fields f == some "Unknown")
    && (!(dmem fields f) || dget fields f == some "NOT_FOUND")

/-- `validate_required_fields(fields, doc_type)` from `field_mapping.py`
lines 171-212, returning `(is_valid, missing_fields)`. -/
def validate_required_fields (fields : Dct) (doc_type : String) : Bool × List String :=
  let t := normDocType doc_type
  if t == "drivers_license" || t == "passport" || t == "ead_card" then
    let missing := (REQUIRED_FIELDS t).filter (missingPred fields t)
    (missing.isEmpty, missing)
  else
    (false, ["Unknown document type - cannot validate required fields"])

/-! ## Helper lemmas about the string primitives -/

theorem mem_of_mem_dropWhile {p : Char → Bool} {l : List Char} {c : Char}
    (h : c ∈ l.dropWhile p) : c ∈ l := by
  induction l with
  | nil => simp at h
  | cons a as ih =>
    rw [List.dropWhile_cons] at h
    by_cases hp : p a = true
    · simp only [hp, if_true] at h
      exact List.mem_cons_of_mem _ (ih h)
    · simp only [hp, if_false] at h
      exact h

theorem mem_of_mem_pyStripList {l : List Char} {c : Char}
    (h : c ∈ pyStripList l) : c ∈ l := by
  unfold pyStripList at h
  rw [List.mem_reverse] at h
  have h2 := mem_of_mem_dropWhile h
  rw [List.mem_reverse] at h2
  exact mem_of_mem_dropWhile h2

theorem splitOnceAux_space {l : List Char} {p : List Char × List Char}
    (h : splitOnceAux l = some p) : ' ' ∈ l := by
  induction l generalizing p with
  | nil => simp [splitOnceAux] at h
  | cons a as ih =>
    rw [splitOnceAux] at h
    by_cases ha : a = ' '
    · simp [ha]
    · have hb : (a == ' ') = false := by simp [ha]
      simp only [hb, Bool.false_eq_true, if_false, Option.map_eq_some'] at h
      obtain ⟨q, hq, _⟩ := h
      exact List.mem_cons_of_mem _ (ih hq)

theorem pySplitOnce_contains {s : String} {p : String × String}
    (h : pySplitOnce (pyStrip s) = some p) : pyContainsChar s ' ' = true := by
  unfold pySplitOnce at h
  rw [Option.map_eq_some'] at h
  obtain ⟨q, hq, _⟩ := h
  have hmem : ' ' ∈ (pyStrip s).toList := splitOnceAux_space hq
  have : ' ' ∈ s.toList := by
    have : (pyStrip s).toList = pyStripList s.toList := rfl
    rw [this] at hmem
    exact mem_of_mem_pyStripList hmem
  simpa [pyContainsChar] using this

/-- `initDocType` always yields a single `document_type` binding. -/
theorem initDocType_shape (ef : Dct) (t : String) :
    ∃ w, initDocType ef t = [("document_type", w)] := by
  unfold initDocType
  cases dget ef "document_type" <;>
    [skip; rename_i v] <;>
    · repeat' split
      all_goals exact ⟨_, rfl⟩

/-! ## C1: type-conditional alias for `expiration_date` -/

/-- **C1.** Canonicalizing the single raw field `expiration_date` under
`ead_card` stores the value under canonical key `card_expires_date`
(and not `expiration_date`), while under `drivers_license` or
`passport` the value stays under `expiration_date` (and never under
`card_expires_date`), for every raw value `v`. -/
theorem expiration_date_alias_type_conditional (v : String) :
    dget (standardize_field_names [("expiration_date", v)] "ead_card") "card_expires_date" = some v
    ∧ dget (standardize_field_names [("expiration_date", v)] "ead_card") "expiration_date" = none
    ∧ dget (standardize_field_names [("expiration_date", v)] "drivers_license") "expiration_date" = some v
    ∧ dget (standardize_field_names [("expiration_date", v)] "drivers_license") "card_expires_date" = none
    ∧ dget (standardize_field_names [("expiration_date", v)] "passport") "expiration_date" = some v
    ∧ dget (standardize_field_names [("expiration_date", v)] "passport") "card_expires_date" = none :=
  ⟨rfl, rfl, rfl, rfl, rfl, rfl⟩

/-! ## C4: the heuristic `full_name` split -/

/-- **C4, counterexample.** The raw value `"JOHN "` contains a space and
neither `first_name` nor `last_name` is present, yet canonicalization
produces no `first_name`/`last_name` bindings at all: the source strips
the value before splitting and `"JOHN".split(' ', 1)` has a single
part, so the claimed unconditional split (which would give
`first_name = "JOHN"`, `last_name = ""`) does not happen. -/
theorem full_name_split_counterexample :
    pyContainsChar "JOHN " ' ' = true
    ∧ dget [("full_name", "JOHN ")] "first_name" = none
    ∧ dget [("full_name", "JOHN ")] "last_name" = none
    ∧ dget (standardize_field_names [("full_name", "JOHN ")] "drivers_license") "first_name" = none
    ∧ dget (standardize_field_names [("full_name", "JOHN ")] "drivers_license") "last_name" = none :=
  ⟨rfl, rfl, rfl, rfl, rfl⟩

/-- **C4, amended.** When canonicalizing a mapping whose only field is
`full_name`, the *stripped* value is split on its first space — and the
split happens exactly when the stripped value still contains a space —
with `first_name` receiving the part before that space and `last_name`
the remainder of the stripped value; in particular `"JOHN SMITH"`
yields `first_name = "JOHN"` and `last_name = "SMITH"`. -/
theorem full_name_split_amended (dt v p1 p2 : String)
    (h : pySplitOnce (pyStrip v) = some (p1, p2)) :
    dget (standardize_field_names [("full_name", v)] dt) "full_name" = some v
    ∧ dget (standardize_field_names [("full_name", v)] dt) "first_name" = some p1
    ∧ dget (standardize_field_names [("full_name", v)] dt) "last_name" = some p2 := by
  have hv : (v == "NOT_FOUND") = false := by
    by_cases hveq : v = "NOT_FOUND"
    · have hnone : pySplitOnce (pyStrip "NOT_FOUND") = none := by decide
      rw [hveq, hnone] at h
      exact absurd h (by simp)
    · simp [hveq]
  have hc : pyContainsChar v ' ' = true := pySplitOnce_contains h
  obtain ⟨w, hw⟩ := initDocType_shape [("full_name", v)] (normDocType dt)
  have e1 : (("full_name" : String) == "document_type") = false := by decide
  have e2 : pyLower "full_name" = "full_name" := by decide
  have e3 : (("full_name" : String) == "expiration_date") = false := by decide
  have e4 : (("full_name" : String) == "country") = false := by decide
  have e5 : aliasLookup "full_name" = "full_name" := by decide
  have e6 : (("full_name" : String) == "full_name") = true := by decide
  have hmid : standardizeMid [("full_name", v)] dt =
      [("document_type", w), ("full_name", v), ("first_name", p1), ("last_name", p2)] := by
    unfold standardizeMid
    rw [List.foldl_cons, List.foldl_nil, hw]
    have hstep : stdStep (normDocType dt) [("document_type", w)] ("full_name", v)
        = applyNameSplit "full_name" (dset [("document_type", w)] "full_name" v) v := rfl
    rw [hstep]
    unfold applyNameSplit
    simp only [e6, hc, hv, Bool.not_false, Bool.and_true, Bool.true_and, if_true, h]
    simp [setIfAbsent, dmem, dset]
  have hfix : ∀ k, k ≠ "issue_date" →
      dget (standardize_field_names [("full_name", v)] dt) k
        = dget (standardizeMid [("full_name", v)] dt) k := by
    intro k hk
    unfold standardize_field_names passportIssueDateFix
    by_cases hb : (normDocType dt == "passport"
        && (!dmem (standardizeMid [("full_name", v)] dt) "issue_date"
            || dget (standardizeMid [("full_name", v)] dt) "issue_date" == some "NOT_FOUND")) = true
    · rw [if_pos hb]
      cases hdoi : dget (standardizeMid [("full_name", v)] dt) "date_of_issue" with
      | none => exact dget_dset_ne _ _ _ _ hk
      | some u =>
        by_cases hu : (u == "NOT_FOUND") = true
        · simp only [hu, Bool.not_true, Bool.false_eq_true, if_false]
          exact dget_dset_ne _ _ _ _ hk
        · simp only [Bool.not_eq_true] at hu
          simp only [hu, Bool.not_false, if_true]
          exact dget_dset_ne _ _ _ _ hk
    · rw [if_neg hb]
  refine ⟨?_, ?_, ?_⟩
  · rw [hfix "full_name" (by decide), hmid]
    simp [dget_cons]
  · rw [hfix "first_name" (by decide), hmid]
    simp [dget_cons]
  · rw [hfix "last_name" (by decide), hmid]
    simp [dget_cons]

/-- **C4, witness.** The amended split at `"JOHN SMITH"`. -/
theorem full_name_split_amended_witness :
    dget (standardize_field_names [("full_name", "JOHN SMITH")] "passport") "full_name"
        = some "JOHN SMITH"
    ∧ dget (standardize_field_names [("full_name", "JOHN SMITH")] "passport") "first_name"
        = some "JOHN"
    ∧ dget (standardize_field_names [("full_name", "JOHN SMITH")] "passport") "last_name"
        = some "SMITH" :=
  full_name_split_amended "passport" "JOHN SMITH" "JOHN" "SMITH" (by decide)

/-! ## C7: passports always carry an `issue_date` -/

/-- The fallback value the passport fix stores into `issue_date`:
`date_of_issue` when present and not `NOT_FOUND`, else `"Unknown"`. -/
def issueDateFallback (std : Dct) : Option String :=
  match dget std "date_of_issue" with
  | some w => if w == "NOT_FOUND" then some "Unknown" else some w
  | none => some "Unknown"

theorem dget_passportFix_branch (std : Dct) :
    dget (match dget std "date_of_issue" with
          | some w => if !(w == "NOT_FOUND") then dset std "issue_date" w
                      else dset std "issue_date" "Unknown"
          | none => dset std "issue_date" "Unknown") "issue_date"
      = issueDateFallback std := by
  unfold issueDateFallback
  cases hdoi : dget std "date_of_issue" with
  | none => simp [dget_dset_self]
  | some w =>
    by_cases hw : (w == "NOT_FOUND") = true
    · simp [hw, dget_dset_self]
    · simp only [Bool.not_eq_true] at hw
      simp [hw, dget_dset_self]

theorem passportIssueDateFix_get (std : Dct) :
    dget (passportIssueDateFix "passport" std) "issue_date" =
      match dget std "issue_date" with
      | some u => if u == "NOT_FOUND" then issueDateFallback std else some u
      | none => issueDateFallback std := by
  unfold passportIssueDateFix
  by_cases hb : ("passport" == "passport"
      && (!dmem std "issue_date" || dget std "issue_date" == some "NOT_FOUND")) = true
  · rw [if_pos hb]
    simp only [Bool.and_eq_true, Bool.or_eq_true, Bool.not_eq_true'] at hb
    cases hid : dget std "issue_date" with
    | none => exact dget_passportFix_branch std
    | some u =>
      have hmem : dmem std "issue_date" = true := by rw [dmem_eq_isSome, hid]; rfl
      have hu : (u == "NOT_FOUND") = true := by
        rcases hb.2 with hfalse | hbeq
        · rw [hmem] at hfalse; cases hfalse
        · rw [hid] at hbeq; exact hbeq
      show dget _ "issue_date"
        = if (u == "NOT_FOUND") = true then issueDateFallback std else some u
      rw [hu, if_pos rfl]
      exact dget_passportFix_branch std
  · rw [if_neg hb]
    simp only [Bool.and_eq_true, Bool.or_eq_true, Bool.not_eq_true', not_and_or,
      not_or] at hb
    rcases hb with hb | hb
    · exact absurd rfl hb
    · obtain ⟨hmem, hbeq⟩ := hb
      simp only [Bool.not_eq_false] at hmem hbeq
      rw [dmem_eq_isSome] at hmem
      cases hid : dget std "issue_date" with
      | none => rw [hid] at hmem; cases hmem
      | some u =>
        have hu : (u == "NOT_FOUND") = false := by
          rw [hid] at hbeq
          simpa using hbeq
        show some u
          = if (u == "NOT_FOUND") = true then issueDateFallback std else some u
        rw [hu, if_neg (by simp)]

/-- **C7.** For `doc_type = "passport"` the canonicalized output always
contains `issue_date`; when `issue_date` is absent or `NOT_FOUND` after
alias resolution it is taken from `date_of_issue` when that key is
present and not `NOT_FOUND`, and otherwise it is the literal
`"Unknown"`; an already-good `issue_date` is kept. -/
theorem passport_issue_date_present (ef : Dct) :
    (dget (standardize_field_names ef "passport") "issue_date").isSome = true
    ∧ ((dget (standardizeMid ef "passport") "issue_date" = none
        ∨ dget (standardizeMid ef "passport") "issue_date" = some "NOT_FOUND") →
        (∀ w, dget (standardizeMid ef "passport") "date_of_issue" = some w →
            w ≠ "NOT_FOUND" →
            dget (standardize_field_names ef "passport") "issue_date" = some w)
        ∧ (dget (standardizeMid ef "passport") "date_of_issue" = none →
            dget (standardize_field_names ef "passport") "issue_date" = some "Unknown")
        ∧ (dget (standardizeMid ef "passport") "date_of_issue" = some "NOT_FOUND" →
            dget (standardize_field_names ef "passport") "issue_date" = some "Unknown"))
    ∧ (∀ u, dget (standardizeMid ef "passport") "issue_date" = some u →
        u ≠ "NOT_FOUND" → u ≠ "NOT_FOUND" →
        dget (standardize_field_names ef "passport") "issue_date" = some u) := by
  have hnorm : normDocType "passport" = "passport" := by decide
  have hout : dget (standardize_field_names ef "passport") "issue_date" =
      match dget (standardizeMid ef "passport") "issue_date" with
      | some u => if u == "NOT_FOUND" then issueDateFallback (standardizeMid ef "passport")
                  else some u
      | none => issueDateFallback (standardizeMid ef "passport") := by
    unfold standardize_field_names
    rw [hnorm, passportIssueDateFix_get]
  refine ⟨?_, ?_, ?_⟩
  · rw [hout]
    cases hid : dget (standardizeMid ef "passport") "issue_date" with
    | none =>
      unfold issueDateFallback
      cases hdoi : dget (standardizeMid ef "passport") "date_of_issue" with
      | none => rfl
      | some w =>
        by_cases hw : (w == "NOT_FOUND") = true
        · simp [hw]
        · simp only [Bool.not_eq_true] at hw
          simp [hw]
    | some u =>
      by_cases hu : (u == "NOT_FOUND") = true
      · simp only [hu, if_pos]
        unfold issueDateFallback
        cases hdoi : dget (standardizeMid ef "passport") "date_of_issue" with
        | none => rfl
        | some w =>
          by_cases hw : (w == "NOT_FOUND") = true
          · simp [hw]
          · simp only [Bool.not_eq_true] at hw
            simp [hw]
      · simp only [Bool.not_eq_true] at hu
        simp [hu]
  · intro hmissing
    refine ⟨?_, ?_, ?_⟩
    · intro w hdoi hwne
      have hw : (w == "NOT_FOUND") = false := by simp [hwne]
      rw [hout]
      rcases hmissing with hid | hid <;>
        · rw [hid]
          unfold issueDateFallback
          simp [hdoi, hw]
    · intro hdoi
      rw [hout]
      rcases hmissing with hid | hid <;>
        · rw [hid]
          unfold issueDateFallback
          simp [hdoi]
    · intro hdoi
      rw [hout]
      rcases hmissing with hid | hid <;>
        · rw [hid]
          unfold issueDateFallback
          simp [hdoi]
  · intro u hid _ hune
    have hu : (u == "NOT_FOUND") = false := by simp [hune]
    rw [hout, hid]
    simp [hu]

/-- **C7, witness.** The empty raw mapping under `passport`: `issue_date`
is materialised as `"Unknown"`. -/
theorem passport_issue_date_present_witness :
    (dget (standardize_field_names [] "passport") "issue_date").isSome = true
    ∧ dget (standardize_field_names [] "passport") "issue_date" = some "Unknown" :=
  ⟨(passport_issue_date_present []).1,
   ((passport_issue_date_present []).2.1 (Or.inl (by decide))).2.1 (by decide)⟩

/-! ## C2: validation completeness -/

/-- A required field counts as satisfied: either the passport
`issue_date == "Unknown"` exception applies, or the field is present
with a value different from `NOT_FOUND`. -/
def fieldOk (fields : Dct) (t f : String) : Prop :=
  (f = "issue_date" ∧ t = "passport" ∧ dget fields f = some "Unknown")
  ∨ (dget fields f ≠ none ∧ dget fields f ≠ some "NOT_FOUND")

instance (fields : Dct) (t f : String) : Decidable (fieldOk fields t f) := by
  unfold fieldOk
  infer_instance

theorem missingPred_false_iff (fields : Dct) (t f : String) :
    missingPred fields t f = false ↔ fieldOk fields t f := by
  unfold missingPred fieldOk
  rw [dmem_eq_isSome]
  cases hg : dget fields f with
  | none => simp
  | some u =>
    by_cases hu : u = "NOT_FOUND"
    · subst hu
      simp [beq_iff_eq]
    · simp [beq_iff_eq, hu, Option.some_inj, Ne.symm]

/-- `missingPred` only inspects the dictionary at the field itself. -/
theorem missingPred_dremove_ne (d : Dct) (t f b : String) (hb : b ≠ f) :
    missingPred (dremove d f) t b = missingPred d t b := by
  unfold missingPred
  rw [dget_dremove_ne d f b hb, dmem_eq_isSome, dmem_eq_isSome,
    dget_dremove_ne d f b hb]

theorem filter_eq_single {l : List String} {p : String → Bool} {a : String}
    (hnd : l.Nodup) (ha : a ∈ l) (hpa : p a = true)
    (hother : ∀ b ∈ l, b ≠ a → p b = false) : l.filter p = [a] := by
  induction l with
  | nil => cases ha
  | cons x xs ih =>
    rw [List.nodup_cons] at hnd
    rcases List.mem_cons.mp ha with h | h
    · subst h
      rw [List.filter_cons_of_pos hpa]
      have hnil : xs.filter p = [] := by
        rw [List.filter_eq_nil_iff]
        intro b hb
        have hbne : b ≠ a := fun he => hnd.1 (he ▸ hb)
        rw [hother b (List.mem_cons_of_mem _ hb) hbne]
        simp
      rw [hnil]
    · have hxa : x ≠ a := fun he => hnd.1 (he ▸ h)
      have hpx : p x = false := hother x (List.mem_cons_self _ _) hxa
      rw [List.filter_cons_of_neg (by simp [hpx])]
      exact ih hnd.2 h (fun b hb hb2 => hother b (List.mem_cons_of_mem _ hb) hb2)

/-- For the three canonical type names, `validate_required_fields`
reduces to filtering the required list by `missingPred`. -/
theorem validate_required_fields_eq (d : Dct) (t : String)
    (ht : t = "passport" ∨ t = "drivers_license" ∨ t = "ead_card") :
    validate_required_fields d t =
      (((REQUIRED_FIELDS t).filter (missingPred d t)).isEmpty,
       (REQUIRED_FIELDS t).filter (missingPred d t)) := by
  have hnorm : normDocType t = t := by
    rcases ht with h | h | h <;> subst h <;> decide
  have hknown : (t == "drivers_license" || t == "passport" || t == "ead_card") = true := by
    rcases ht with h | h | h <;> subst h <;> decide
  unfold validate_required_fields
  simp only [hnorm, hknown]
  rfl

/-- **C2.** For every field mapping and each known document type, the
Validation Gate reports `is_complete = true` with empty `missing` iff
every required field is satisfied (present and non-`NOT_FOUND`, with
the passport `issue_date = "Unknown"` exception); and removing any one
required field from a complete mapping flips the result to
`(false, [that field])`. -/
theorem validate_required_fields_complete (d : Dct) (t : String)
    (ht : t = "passport" ∨ t = "drivers_license" ∨ t = "ead_card") :
    (validate_required_fields d t = (true, []) ↔
      ∀ f ∈ REQUIRED_FIELDS t, fieldOk d t f)
    ∧ (∀ f ∈ REQUIRED_FIELDS t, validate_required_fields d t = (true, []) →
        validate_required_fields (dremove d f) t = (false, [f])) := by
  have heq := validate_required_fields_eq d t ht
  have hiff : validate_required_fields d t = (true, []) ↔
      ∀ f ∈ REQUIRED_FIELDS t, fieldOk d t f := by
    rw [heq]
    constructor
    · intro h f hf
      have hnil : (REQUIRED_FIELDS t).filter (missingPred d t) = [] := by
        have := congrArg Prod.snd h
        simpa using this
      have := (List.filter_eq_nil_iff.mp hnil) f hf
      exact (missingPred_false_iff d t f).mp (by simpa using this)
    · intro h
      have hnil : (REQUIRED_FIELDS t).filter (missingPred d t) = [] := by
        rw [List.filter_eq_nil_iff]
        intro f hf
        have := (missingPred_false_iff d t f).mpr (h f hf)
        simp [this]
      rw [hnil]
      rfl
  refine ⟨hiff, ?_⟩
  intro f hf hcomplete
  have hok : ∀ b ∈ REQUIRED_FIELDS t, fieldOk d t b := hiff.mp hcomplete
  have hnd : (REQUIRED_FIELDS t).Nodup := by
    rcases ht with h | h | h <;> subst h <;> decide
  have hsingle : (REQUIRED_FIELDS t).filter (missingPred (dremove d f) t) = [f] := by
    apply filter_eq_single hnd hf
    · unfold missingPred
      rw [dget_dremove_self, dmem_eq_isSome, dget_dremove_self]
      simp
    · intro b hb hbne
      rw [missingPred_dremove_ne d t f b hbne]
      exact (missingPred_false_iff d t b).mpr (hok b hb)
  rw [validate_required_fields_eq (dremove d f) t ht, hsingle]
  rfl

/-- **C2, witness.** A complete driver's-license mapping validates, and
removing `license_number` flips the validation to
`(false, ["license_number"])`. -/
theorem validate_required_fields_complete_witness :
    validate_required_fields
        [("license_number", "A1234567"), ("date_of_birth", "01/15/1990"),
         ("issue_date", "01/01/2020"), ("expiration_date", "01/15/2025"),
         ("first_name", "JOHN"), ("last_name", "SMITH")] "drivers_license"
      = (true, [])
    ∧ validate_required_fields
        (dremove
          [("license_number", "A1234567"), ("date_of_birth", "01/15/1990"),
           ("issue_date", "01/01/2020"), ("expiration_date", "01/15/2025"),
           ("first_name", "JOHN"), ("last_name", "SMITH")] "license_number")
        "drivers_license"
      = (false, ["license_number"]) := by
  have hcomplete : validate_required_fields
      [("license_number", "A1234567"), ("date_of_birth", "01/15/1990"),
       ("issue_date", "01/01/2020"), ("expiration_date", "01/15/2025"),
       ("first_name", "JOHN"), ("last_name", "SMITH")] "drivers_license"
      = (true, []) :=
    (validate_required_fields_complete
      [("license_number", "A1234567"), ("date_of_birth", "01/15/1990"),
       ("issue_date", "01/01/2020"), ("expiration_date", "01/15/2025"),
       ("first_name", "JOHN"), ("last_name", "SMITH")] "drivers_license"
      (Or.inr (Or.inl rfl))).1.mpr (by decide)
  refine ⟨hcomplete, ?_⟩
  exact (validate_required_fields_complete
      [("license_number", "A1234567"), ("date_of_birth", "01/15/1990"),
       ("issue_date", "01/01/2020"), ("expiration_date", "01/15/2025"),
       ("first_name", "JOHN"), ("last_name", "SMITH")] "drivers_license"
      (Or.inr (Or.inl rfl))).2 "license_number" (by decide) hcomplete

/-! ## C9: the canonical `document_type` label -/

/-- The human-readable label for a resolved known document type. -/
def typeLabel (t : String) : String :=
  if t == "passport" then "Passport"
  else if t == "drivers_license" then driversLicenseLabel
  else if t == "ead_card" then "EAD Card"
  else t

theorem dget_setIfAbsent_ne (d : Dct) (k v q : String) (h : q ≠ k) :
    dget (setIfAbsent d k v) q = dget d q := by
  unfold setIfAbsent
  split
  · rfl
  · exact dget_dset_ne d k v q h

theorem aliasLookup_ne_document_type (f : String) (hf : f ≠ "document_type") :
    aliasLookup f ≠ "document_type" := by
  unfold aliasLookup
  cases hg : dget FIELD_ALIASES f with
  | none => simpa using hf
  | some v =>
    have hv : (f, v) ∈ FIELD_ALIASES := dget_some_mem _ _ _ hg
    have hall : ∀ pr ∈ FIELD_ALIASES, pr.2 ≠ "document_type" := by decide
    simpa using hall _ hv

/-- The field loop never rewrites the `document_type` binding, provided
no raw field name lower-cases to `document_type`. -/
theorem stdStep_preserves_document_type (t : String) (std : Dct) (fv : String × String)
    (hfv : pyLower fv.1 ≠ "document_type") :
    dget (stdStep t std fv) "document_type" = dget std "document_type" := by
  have halias : ("document_type" : String) ≠ aliasLookup (pyLower fv.1) :=
    Ne.symm (aliasLookup_ne_document_type _ hfv)
  have hname : ("document_type" : String) ≠ stdName t (pyLower fv.1) := by
    unfold stdName
    split
    · split <;> decide
    · split
      · decide
      · exact halias
  have hpre : dget (stdPre t std (pyLower fv.1) fv.2) "document_type"
      = dget std "document_type" := by
    unfold stdPre
    split
    · rfl
    · split
      · exact dget_setIfAbsent_ne std "nationality" fv.2 "document_type" (by decide)
      · rfl
  unfold stdStep
  split
  · rfl
  · unfold applyNameSplit
    split
    · split
      · rw [dget_setIfAbsent_ne _ _ _ _ (by decide),
          dget_setIfAbsent_ne _ _ _ _ (by decide),
          dget_dset_ne _ _ _ _ hname, hpre]
      · rw [dget_dset_ne _ _ _ _ hname, hpre]
    · rw [dget_dset_ne _ _ _ _ hname, hpre]

theorem foldl_preserves_document_type (t : String) (l : Dct) (acc : Dct)
    (hl : ∀ p ∈ l, pyLower p.1 ≠ "document_type") :
    dget (l.foldl (stdStep t) acc) "document_type" = dget acc "document_type" := by
  induction l generalizing acc with
  | nil => rfl
  | cons p rest ih =>
    rw [List.foldl_cons]
    rw [ih (stdStep t acc p) (fun q hq => hl q (List.mem_cons_of_mem _ hq))]
    exact stdStep_preserves_document_type t acc p (hl p (List.mem_cons_self _ _))

theorem passportFix_preserves_document_type (t : String) (std : Dct) :
    dget (passportIssueDateFix t std) "document_type" = dget std "document_type" := by
  unfold passportIssueDateFix
  split
  · split
    · split
      · exact dget_dset_ne _ _ _ _ (by decide)
      · exact dget_dset_ne _ _ _ _ (by decide)
    · exact dget_dset_ne _ _ _ _ (by decide)
  · rfl

/-- **C9.** When the raw `document_type` value is exactly `"P"`, the
canonicalized `document_type` is `"Passport"` whatever document type the
document resolved to; otherwise, for a resolved known type, the label is
derived from the type alone (`"Passport"`, `"Driver's License"`,
`"EAD Card"`), independent of the raw value.  `rest` are the remaining
raw fields, none of which lower-cases to `document_type`. -/
theorem document_type_label (dt v : String) (rest : Dct)
    (hrest : ∀ p ∈ rest, pyLower p.1 ≠ "document_type") :
    dget (standardize_field_names (("document_type", v) :: rest) dt) "document_type"
      = (if v == "P" then some "Passport"
         else if normDocType dt == "passport"
           ∨ normDocType dt == "drivers_license"
           ∨ normDocType dt == "ead_card" then some (typeLabel (normDocType dt))
         else some v) := by
  have hget : dget (("document_type", v) :: rest) "document_type" = some v := by
    rw [dget_cons]
    simp
  have hinit : initDocType (("document_type", v) :: rest) (normDocType dt)
      = [("document_type",
          if v == "P" then "Passport"
          else if normDocType dt == "passport" then "Passport"
          else if normDocType dt == "drivers_license" then driversLicenseLabel
          else if normDocType dt == "ead_card" then "EAD Card"
          else v)] := by
    unfold initDocType
    rw [hget]
    repeat' split
    all_goals simp_all
  unfold standardize_field_names standardizeMid
  rw [passportFix_preserves_document_type]
  rw [List.foldl_cons]
  have hstep : stdStep (normDocType dt)
      (initDocType (("document_type", v) :: rest) (normDocType dt)) ("document_type", v)
      = initDocType (("document_type", v) :: rest) (normDocType dt) := by
    unfold stdStep
    rw [if_pos (show (("document_type", v).1 == "document_type") = true by rfl)]
  rw [hstep, foldl_preserves_document_type _ _ _ hrest, hinit]
  rw [dget_cons]
  simp only [beq_self_eq_true, if_true]
  by_cases hp : (v == "P") = true
  · simp [hp]
  · have hp' : (v == "P") = false := by simpa using hp
    rw [hp']
    simp only [Bool.false_eq_true, if_false]
    by_cases h1 : (normDocType dt == "passport") = true
    · simp [h1, typeLabel]
    · by_cases h2 : (normDocType dt == "drivers_license") = true
      · have h1' : (normDocType dt == "passport") = false := by simpa using h1
        simp [h1', h2, typeLabel]
      · by_cases h3 : (normDocType dt == "ead_card") = true
        · have h1' : (normDocType dt == "passport") = false := by simpa using h1
          have h2' : (normDocType dt == "drivers_license") = false := by simpa using h2
          simp [h1', h2', h3, typeLabel]
        · have h1' : (normDocType dt == "passport") = false := by simpa using h1
          have h2' : (normDocType dt == "drivers_license") = false := by simpa using h2
          have h3' : (normDocType dt == "ead_card") = false := by simpa using h3
          simp [h1', h2', h3']

/-- **C9, witness.** A raw `"P"` under a driver's-license classification
still labels as `"Passport"`; a raw `"DRIVER LICENSE"` string under the
`dl` hint labels as `"Driver's License"`. -/
theorem document_type_label_witness :
    dget (standardize_field_names [("document_type", "P")] "drivers_license")
        "document_type" = some "Passport"
    ∧ dget (standardize_field_names [("document_type", "DRIVER LICENSE")] "dl")
        "document_type" = some driversLicenseLabel := by
  constructor
  · have h := document_type_label "drivers_license" "P" [] (by simp)
    rw [h]
    rfl
  · have h := document_type_label "dl" "DRIVER LICENSE" [] (by simp)
    rw [h]
    rfl

/-! ## C3 / C8: the Date Normalizer

The repository's test-suite calls `DocumentProcessor.normalize_date`
(`backend/tests/test_fuzzy_data.py`), but no such method exists in the
source tree; only its tests and the spec describe it.  The definitions
below are therefore modelled from the spec (§4.6), not from source. -/

/-- Modelled from the spec: the three-letter month abbreviations the
missing `DocumentProcessor.normalize_date` recognises in the middle of
a `DDMMMYYYY` token. -/
def monthAbbrevs : List String :=
  ["Jan", "Feb", "Mar", "Apr", "May", "Jun", "Jul", "Aug", "Sep", "Oct", "Nov", "Dec"]

/-- Modelled from the spec: the `DDMMMYYYY` pattern match of the missing
`DocumentProcessor.normalize_date` — two digits, a three-letter month
abbreviation, four digits; on match the re-rendered `DD Mon YYYY`
character list (title-cased month), otherwise `none`. -/
def normDateList : List Char → Option (List Char)
  | [d1, d2, m1, m2, m3, y1, y2, y3, y4] =>
    if d1.isDigit && d2.isDigit && y1.isDigit && y2.isDigit && y3.isDigit && y4.isDigit
        && monthAbbrevs.contains (String.mk [m1.toUpper, m2.toLower, m3.toLower]) then
      some [d1, d2, ' ', m1.toUpper, m2.toLower, m3.toLower, ' ', y1, y2, y3, y4]
    else none
  | _ => none

/-- Modelled from the spec: the missing `DocumentProcessor.normalize_date`
(spec §4.6) — re-render a compact `DDMMMYYYY` token as `DD Mon YYYY`,
pass every other string through unchanged. -/
def normalize_date (s : String) : String :=
  match normDateList s.toList with
  | some l => String.mk l
  | none => s

theorem normDateList_length {l r : List Char} (h : normDateList l = some r) :
    r.length = 11 := by
  unfold normDateList at h
  split at h
  · split at h
    · injection h with h
      subst h
      rfl
    · cases h
  · cases h

theorem normDateList_of_length_ne {l : List Char} (h : l.length ≠ 9) :
    normDateList l = none := by
  unfold normDateList
  split
  · exact absurd rfl h
  · rfl

/-- The normalizer either passes through or produces an 11-character
rendering. -/
theorem normalize_date_cases (s : String) :
    normalize_date s = s ∨ (normalize_date s).toList.length = 11 := by
  unfold normalize_date
  cases hm : normDateList s.toList with
  | none => left; rfl
  | some l => right; simpa using normDateList_length hm

/-- **C8.** The Date Normalizer is idempotent: normalizing twice equals
normalizing once, for every input string. -/
theorem normalize_date_idempotent (s : String) :
    normalize_date (normalize_date s) = normalize_date s := by
  rcases normalize_date_cases s with h | h
  · rw [h]
    exact h
  · have hn : normDateList (normalize_date s).toList = none :=
      normDateList_of_length_ne (by rw [h]; decide)
    show (match normDateList (normalize_date s).toList with
          | some l => String.mk l
          | none => normalize_date s) = normalize_date s
    rw [hn]

/-- **C3.** The Date Normalizer maps `"15JAN1985"` to `"15 Jan 1985"`
and `"01FEB2020"` to `"01 Feb 2020"`, and returns any string that does
not match the `DDMMMYYYY` pattern (for example `"2024-01-15"`)
unchanged — in particular it never substitutes missing-data output for
an unparseable value. -/
theorem normalize_date_compact_rendering :
    normalize_date "15JAN1985" = "15 Jan 1985"
    ∧ normalize_date "01FEB2020" = "01 Feb 2020"
    ∧ normalize_date "2024-01-15" = "2024-01-15"
    ∧ ∀ s, normDateList s.toList = none → normalize_date s = s := by
  refine ⟨by decide, by decide, by decide, ?_⟩
  intro s h
  unfold normalize_date
  rw [h]

/-- **C3, witness.** The pass-through clause applied at `"2024-01-15"`. -/
theorem normalize_date_compact_rendering_witness :
    normDateList ("2024-01-15" : String).toList = none
    ∧ normalize_date "2024-01-15" = "2024-01-15" :=
  ⟨by decide, normalize_date_compact_rendering.2.2.2 "2024-01-15" (by decide)⟩

/-! ## C10: `backend/app/utils/ai.py` — cleaned extraction values -/

/-- Python `not value or value.strip() == ""` for a string value. -/
def pyIsBlank (v : String) : Bool := pyStrip v == ""

/-- The per-value cleaning of `validate_gpt_response` (lines 114-120):
blank values become `NOT_FOUND`, all others are stripped and
upper-cased. -/
def cleanValue (v : String) : String :=
  if pyIsBlank v then "NOT_FOUND" else pyUpper (pyStrip v)

/-- `validate_gpt_response` lines 107-111: back-fill every requested
field that the parsed response omitted with `NOT_FOUND`. -/
def backfillMissing (parsed : Dct) (fields : List String) : Dct :=
  fields.foldl (fun d f => if dmem d f then d else dset d f "NOT_FOUND") parsed

/-- `validate_gpt_response(response, doc_type, fields)` from `ai.py`
lines 71-138, starting from the parsed JSON object (parsing itself is
external): back-fill missing fields, clean every value, and fail
(`none`) when every value is `NOT_FOUND`. -/
def validate_gpt_response (parsed : Dct) (fields : List String) : Option Dct :=
  if ((backfillMissing parsed fields).map (fun p => (p.1, cleanValue p.2))).all
      (fun p => p.2 == "NOT_FOUND") then none
  else some ((backfillMissing parsed fields).map (fun p => (p.1, cleanValue p.2)))

/-- The `document_number` alias list of `get_gpt_extraction`
(lines 332-334). -/
def docNumberAliases : List String :=
  ["document_number", "passport_number", "passport no", "document no", "passportno",
   "documentno", "id_number", "id no", "idno"]

/-- The alias scan of `get_gpt_extraction` (lines 335-340): the first
alias bound to a truthy value different from `NOT_FOUND`. -/
def firstNonNF (ex : Dct) : List String → Option String
  | [] => none
  | a :: rest =>
    match dget ex a with
    | some w => if !(w == "") && !(w == "NOT_FOUND") then some w else firstNonNF ex rest
    | none => firstNonNF ex rest

/-- The tail of `get_gpt_extraction` (lines 316-346), starting from the
parsed service response (`none` when the response was not JSON): on any
validation failure fall back to an all-`NOT_FOUND` mapping, otherwise
resolve the `document_number` alias into the result. -/
def get_gpt_extraction_post (parsed : Option Dct) (fields : List String) : Dct :=
  match parsed with
  | none => fields.map (fun f => (f, "NOT_FOUND"))
  | some p =>
    match validate_gpt_response p fields with
    | none => fields.map (fun f => (f, "NOT_FOUND"))
    | some ex =>
      match firstNonNF ex docNumberAliases with
      | some w => dset ex "document_number" w
      | none => dset ex "document_number" "NOT_FOUND"

/-- ASCII lower-case letter test. -/
def isAsciiLowerChar (c : Char) : Bool :=
  decide (97 ≤ c.toNat) && decide (c.toNat ≤ 122)

/-- A string with no ASCII lower-case letters. -/
def lowerFree (s : String) : Bool := s.toList.all (fun c => !(isAsciiLowerChar c))

theorem toNat_ofNat_of_lt {n : Nat} (h : n < 55296) : (Char.ofNat n).toNat = n := by
  unfold Char.ofNat
  rw [dif_pos (Or.inl h)]
  rfl

theorem toUpper_eq (c : Char) :
    Char.toUpper c = if c.toNat ≥ 97 ∧ c.toNat ≤ 122 then Char.ofNat (c.toNat - 32) else c :=
  rfl

theorem isAsciiLowerChar_toUpper (c : Char) : isAsciiLowerChar (Char.toUpper c) = false := by
  rw [toUpper_eq]
  by_cases h : c.toNat ≥ 97 ∧ c.toNat ≤ 122
  · rw [if_pos h]
    unfold isAsciiLowerChar
    rw [toNat_ofNat_of_lt (by omega)]
    simp only [Bool.and_eq_false_iff, decide_eq_false_iff_not]
    omega
  · rw [if_neg h]
    unfold isAsciiLowerChar
    simp only [Bool.and_eq_false_iff, decide_eq_false_iff_not]
    omega

theorem pyIsSpaceChar_toUpper (c : Char) : pyIsSpaceChar (Char.toUpper c) = pyIsSpaceChar c := by
  rw [toUpper_eq]
  by_cases h : c.toNat ≥ 97 ∧ c.toNat ≤ 122
  · rw [if_pos h]
    unfold pyIsSpaceChar
    rw [toNat_ofNat_of_lt (by omega)]
    rw [decide_eq_false (by omega), decide_eq_false (by omega)]
  · rw [if_neg h]

theorem lowerFree_pyUpper (s : String) : lowerFree (pyUpper s) = true := by
  unfold lowerFree pyUpper
  rw [List.all_eq_true]
  intro c hc
  have hl : (String.mk (s.toList.map Char.toUpper)).toList = s.toList.map Char.toUpper := rfl
  rw [hl] at hc
  obtain ⟨a, _, rfl⟩ := List.mem_map.mp hc
  simp [isAsciiLowerChar_toUpper a]

theorem dropWhile_map_toUpper (l : List Char) :
    (l.map Char.toUpper).dropWhile pyIsSpaceChar
      = (l.dropWhile pyIsSpaceChar).map Char.toUpper := by
  induction l with
  | nil => rfl
  | cons a as ih =>
    rw [List.map_cons, List.dropWhile_cons, List.dropWhile_cons, pyIsSpaceChar_toUpper]
    cases h : pyIsSpaceChar a
    · simp only [Bool.false_eq_true, if_false, List.map_cons]
    · simp only [if_true, ih]

theorem pyStripList_map_toUpper (l : List Char) :
    pyStripList (l.map Char.toUpper) = (pyStripList l).map Char.toUpper := by
  unfold pyStripList
  rw [dropWhile_map_toUpper, ← List.map_reverse, dropWhile_map_toUpper, ← List.map_reverse]

theorem pyStrip_pyUpper (s : String) : pyStrip (pyUpper s) = pyUpper (pyStrip s) := by
  unfold pyStrip pyUpper
  have h1 : (String.mk (s.toList.map Char.toUpper)).toList = s.toList.map Char.toUpper := rfl
  have h2 : (String.mk (pyStripList s.toList)).toList = pyStripList s.toList := rfl
  rw [h1, h2, pyStripList_map_toUpper]

theorem dropWhile_idem (p : Char → Bool) (l : List Char) :
    (l.dropWhile p).dropWhile p = l.dropWhile p := by
  induction l with
  | nil => rfl
  | cons a as ih =>
    cases h : p a
    · simp [List.dropWhile_cons, h]
    · simp [List.dropWhile_cons, h, ih]

theorem dropWhile_head?_false {p : Char → Bool} {l : List Char} {c : Char}
    (h : (l.dropWhile p).head? = some c) : p c = false := by
  induction l with
  | nil => simp [List.dropWhile] at h
  | cons a as ih =>
    rw [List.dropWhile_cons] at h
    by_cases hp : p a = true
    · rw [if_pos hp] at h
      exact ih h
    · rw [if_neg hp] at h
      simp only [List.head?_cons, Option.some_inj] at h
      subst h
      simpa using hp

theorem dropWhile_eq_self_of_head {p : Char → Bool} {l : List Char}
    (h : ∀ c, l.head? = some c → p c = false) : l.dropWhile p = l := by
  cases l with
  | nil => rfl
  | cons a as =>
    rw [List.dropWhile_cons, if_neg]
    simp [h a rfl]

theorem dropWhile_getLast? {p : Char → Bool} {l : List Char}
    (h : l.dropWhile p ≠ []) : (l.dropWhile p).getLast? = l.getLast? := by
  induction l with
  | nil => simp [List.dropWhile] at h
  | cons a as ih =>
    rw [List.dropWhile_cons] at h ⊢
    by_cases hp : p a = true
    · rw [if_pos hp] at h ⊢
      cases has : as with
      | nil => rw [has] at h; simp [List.dropWhile] at h
      | cons b bs =>
        rw [← has]
        rw [ih h, has, List.getLast?_cons_cons]
    · rw [if_neg hp]

theorem pyStripList_eq_self {m : List Char}
    (h1 : m.dropWhile pyIsSpaceChar = m)
    (h2 : m.reverse.dropWhile pyIsSpaceChar = m.reverse) :
    pyStripList m = m := by
  unfold pyStripList
  rw [h1, h2, List.reverse_reverse]

theorem pyStripList_idem (l : List Char) : pyStripList (pyStripList l) = pyStripList l := by
  by_cases hnil : pyStripList l = []
  · rw [hnil]
    rfl
  · have hA : (pyStripList l).dropWhile pyIsSpaceChar = pyStripList l := by
      apply dropWhile_eq_self_of_head
      intro c hc
      unfold pyStripList at hc
      rw [List.head?_reverse] at hc
      have hne : (((l.dropWhile pyIsSpaceChar).reverse).dropWhile pyIsSpaceChar) ≠ [] := by
        intro he
        apply hnil
        unfold pyStripList
        rw [he]
        rfl
      rw [dropWhile_getLast? hne, List.getLast?_reverse] at hc
      exact dropWhile_head?_false hc
    have hB : (pyStripList l).reverse
        = (l.dropWhile pyIsSpaceChar).reverse.dropWhile pyIsSpaceChar := by
      unfold pyStripList
      rw [List.reverse_reverse]
    have h2 : (pyStripList l).reverse.dropWhile pyIsSpaceChar = (pyStripList l).reverse := by
      rw [hB, dropWhile_idem]
    exact pyStripList_eq_self hA h2

theorem pyStrip_idem (s : String) : pyStrip (pyStrip s) = pyStrip s := by
  unfold pyStrip
  have h : (String.mk (pyStripList s.toList)).toList = pyStripList s.toList := rfl
  rw [h, pyStripList_idem]

/-- The two normal-form properties of a cleaned value. -/
theorem cleanValue_normalized (v : String) :
    pyStrip (cleanValue v) = cleanValue v ∧ lowerFree (cleanValue v) = true := by
  unfold cleanValue
  split
  · exact ⟨by decide, by decide⟩
  · exact ⟨by rw [pyStrip_pyUpper, pyStrip_idem], lowerFree_pyUpper _⟩

theorem validate_gpt_response_values {parsed : Dct} {fields : List String} {ex : Dct}
    (h : validate_gpt_response parsed fields = some ex) :
    ∀ pr ∈ ex, ∃ q, pr.2 = cleanValue q := by
  unfold validate_gpt_response at h
  split at h
  · cases h
  · injection h with h
    subst h
    intro pr hpr
    obtain ⟨q, hq, rfl⟩ := List.mem_map.mp hpr
    exact ⟨q.2, rfl⟩

theorem firstNonNF_some {ex : Dct} {l : List String} {w : String}
    (h : firstNonNF ex l = some w) : ∃ a, dget ex a = some w := by
  induction l with
  | nil => simp [firstNonNF] at h
  | cons a rest ih =>
    unfold firstNonNF at h
    split at h
    · split at h
      · injection h with h
        subst h
        exact ⟨a, by assumption⟩
      · exact ih h
    · exact ih h

/-- **C10.** When the service response parses to a JSON object, every
value in the mapping returned by the extraction tail is free of
leading/trailing whitespace and of lower-case letters: each value is
either `NOT_FOUND` or `value.strip().upper()` of a raw value. -/
theorem extraction_values_normalized (parsed : Dct) (fields : List String)
    (pr : String × String) (hpr : pr ∈ get_gpt_extraction_post (some parsed) fields) :
    pyStrip pr.2 = pr.2 ∧ lowerFree pr.2 = true := by
  have hnf : pyStrip ("NOT_FOUND" : String) = "NOT_FOUND" ∧
      lowerFree ("NOT_FOUND" : String) = true := ⟨by decide, by decide⟩
  have hpr2 : pr ∈ (match validate_gpt_response parsed fields with
      | none => fields.map (fun f => (f, "NOT_FOUND"))
      | some ex =>
        match firstNonNF ex docNumberAliases with
        | some w => dset ex "document_number" w
        | none => dset ex "document_number" "NOT_FOUND") := hpr
  clear hpr
  cases hval : validate_gpt_response parsed fields with
  | none =>
    rw [hval] at hpr2
    obtain ⟨f, _, rfl⟩ := List.mem_map.mp hpr2
    exact hnf
  | some ex =>
    rw [hval] at hpr2
    have hpr3 : pr ∈ (match firstNonNF ex docNumberAliases with
        | some w => dset ex "document_number" w
        | none => dset ex "document_number" "NOT_FOUND") := hpr2
    clear hpr2
    have hexval : ∀ q ∈ ex, ∃ r, q.2 = cleanValue r := validate_gpt_response_values hval
    cases hfn : firstNonNF ex docNumberAliases with
    | none =>
      rw [hfn] at hpr3
      rcases mem_dset _ _ _ _ hpr3 with hmem | heq
      · obtain ⟨r, hr⟩ := hexval pr hmem
        rw [hr]
        exact cleanValue_normalized r
      · rw [heq]
        exact hnf
    | some w =>
      rw [hfn] at hpr3
      rcases mem_dset _ _ _ _ hpr3 with hmem | heq
      · obtain ⟨r, hr⟩ := hexval pr hmem
        rw [hr]
        exact cleanValue_normalized r
      · obtain ⟨a, ha⟩ := firstNonNF_some hfn
        obtain ⟨r, hr⟩ := hexval (a, w) (dget_some_mem _ _ _ ha)
        rw [heq]
        show pyStrip w = w ∧ lowerFree w = true
        rw [show w = cleanValue r from hr]
        exact cleanValue_normalized r

/-- **C10, witness.** A lower-case, padded raw value comes back stripped
and upper-cased. -/
theorem extraction_values_normalized_witness :
    ("full_name", "JOHN SMITH")
        ∈ get_gpt_extraction_post (some [("full_name", "  john smith ")]) ["full_name"]
    ∧ pyStrip "JOHN SMITH" = "JOHN SMITH" ∧ lowerFree "JOHN SMITH" = true :=
  ⟨by decide,
   (extraction_values_normalized [("full_name", "  john smith ")] ["full_name"]
      ("full_name", "JOHN SMITH") (by decide)).1,
   (extraction_values_normalized [("full_name", "  john smith ")] ["full_name"]
      ("full_name", "JOHN SMITH") (by decide)).2⟩

/-! ## C5: `backend/app/services/extractor.py` — per-field confidence

Floating-point confidence arithmetic is modelled with exact rationals
(`0.7 + 0.2` etc. are exact in both models at the granularity used
here), and the ambient clock of `datetime.now()` is passed explicitly
as a `PyDate`. -/

def digitsToNat (l : List Char) : Nat :=
  l.foldl (fun n c => n * 10 + (c.toNat - 48)) 0

def isUpperAlpha (c : Char) : Bool := decide (65 ≤ c.toNat) && decide (c.toNat ≤ 90)

/-- The `category` rule `^[A-Z]\d{2}$`. -/
def categoryPattern (s : String) : Bool :=
  match s.toList with
  | [u, a, b] => isUpperAlpha u && a.isDigit && b.isDigit
  | _ => false

deriving instance DecidableEq for Except

/-- The classification keyword rules of `get_gpt_classification`
(`ai.py` lines 150-154). -/
def classRules : List (String × List String) :=
  [("drivers_license",
    ["driver license", "driver" ++ String.mk [apos] ++ "s license", "dl",
     "operator license", "drivers license"]),
   ("passport", ["passport", "united states of america", "type p", "passport no"]),
   ("ead", ["employment authorization", "ead", "authorization document", "card#"])]

/-- Strict comparison of the exact fractions `a.1/a.2 < b.1/b.2` by
cross-multiplication.  The float divisions `matches/len(keywords)` of
the source produce values so well separated for the rule sizes in play
(denominators 4 and 5) that the float comparison agrees with the exact
one. -/
def fracLt (a b : Nat × Nat) : Bool := decide (a.1 * b.2 < b.1 * a.2)

/-- One rule evaluation of `get_gpt_classification`: keep the running
best when this rule has no matches or a confidence not exceeding it.
The confidence is carried as the exact fraction
`(match count, keyword count)`. -/
def classStep (tl : String) (acc : Option String × (Nat × Nat))
    (rule : String × List String) : Option String × (Nat × Nat) :=
  if 0 < (rule.2.filter (fun k => pyIn k tl)).length then
    (if fracLt acc.2 ((rule.2.filter (fun k => pyIn k tl)).length, rule.2.length)
     then (some rule.1, ((rule.2.filter (fun k => pyIn k tl)).length, rule.2.length))
     else acc)
  else acc

/-- `get_gpt_classification(text)` (`ai.py` lines 145-168): keyword
matching over the lower-cased text; `none` when no rule matched. -/
def get_gpt_classification (text : String) : Option String × (Nat × Nat) :=
  classRules.foldl (classStep (pyLower text)) (none, (0, 1))

/-- `DocumentProcessor._setup_templates` (`document_processor.py`
lines 51-85). -/
def field_templates (t : String) : List String :=
  if t == "drivers_license" then
    ["license_number", "name", "date_of_birth", "expiration_date", "address",
     "sex", "height", "eyes", "restrictions", "endorsements"]
  else if t == "passport" then
    ["passport_number", "surname", "given_names", "nationality", "date_of_birth",
     "place_of_birth", "date_of_issue", "date_of_expiry"]
  else if t == "ead" then
    ["card_number", "name", "date_of_birth", "category", "valid_from", "expires",
     "alien_number"]
  else []

/-- Take exactly `n` leading digits. -/
def digitTake (l : List Char) (n : Nat) : Option (List Char × List Char) :=
  let d := l.take n
  if d.length == n && d.all Char.isDigit then some (d, l.drop n) else none

def sepOk (c : Char) : Bool := c == '/' || c == '-'

/-- All matches of `(\d{1,2})(sep)(\d{1,2})(sep)(\d{2,4})` starting at
this position, in regex backtracking preference order (greedy group
lengths first). -/
def dateCombos (l : List Char) : List (Nat × Nat × Nat) :=
  ([2, 1].filterMap (digitTake l)).flatMap (fun p1 =>
    match p1.2 with
    | s1 :: r2 =>
      if sepOk s1 then
        ([2, 1].filterMap (digitTake r2)).flatMap (fun p2 =>
          match p2.2 with
          | s2 :: r4 =>
            if sepOk s2 then
              ([4, 3, 2].filterMap (digitTake r4)).map (fun p3 =>
                (digitsToNat p1.1, digitsToNat p2.1, digitsToNat p3.1))
            else []
          | [] => [])
      else []
    | [] => [])

/-- `re.search` of the date pattern: leftmost match wins. -/
def dateSearch : List Char → Option (Nat × Nat × Nat)
  | [] => none
  | c :: cs =>
    match (dateCombos (c :: cs)).head? with
    | some r => some r
    | none => dateSearch cs

/-- `"%02d"` formatting. -/
def pad2 (n : Nat) : String := if n < 10 then "0" ++ toString n else toString n

/-- The anchored `^[A-Z\s]+$` rule of the name branch. -/
def upperSpacePattern (s : String) : Bool :=
  !s.toList.isEmpty && s.toList.all (fun c => isUpperAlpha c || pyIsSpaceChar c)

/-- Tail of the height pattern after the leading digit and optional
apostrophe: one or two digits then an optional double quote. -/
def heightDigitsPart : List Char → Bool
  | [] => false
  | [a] => a.isDigit
  | a :: b :: rest =>
    (a.isDigit && b.isDigit && (rest.isEmpty || (rest == ['"'])))
      || (a.isDigit && b == '"' && rest.isEmpty)

/-- The height rule: digit, optional apostrophe, 1-2 digits, optional
double quote. -/
def heightPattern (s : String) : Bool :=
  match s.toList with
  | c :: rest =>
    c.isDigit &&
      (match rest with
       | a :: rs => if a == apos then heightDigitsPart rs else heightDigitsPart rest
       | [] => false)
  | [] => false

/-- The license-number rule `[A-Z]{1,5}` then `\d{5,8}` then
`[A-Z]{1,2}`, anchored; the character classes are disjoint so the
greedy match is the full-run decomposition. -/
def licensePattern (s : String) : Bool :=
  let p1 := s.toList.span isUpperAlpha
  let p2 := p1.2.span Char.isDigit
  let p3 := p2.2.span isUpperAlpha
  p3.2.isEmpty && 1 ≤ p1.1.length && p1.1.length ≤ 5
    && 5 ≤ p2.1.length && p2.1.length ≤ 8 && 1 ≤ p3.1.length && p3.1.length ≤ 2

/-- `DocumentProcessor._validate_field` (`document_processor.py`
lines 544-595): per-field cleaning that substitutes `NOT_FOUND` for
values failing the field-specific format. -/
def _validate_field (field_name value : String) : String :=
  let fn := pyLower field_name
  if pyIn "date" fn then
    match dateSearch value.toList with
    | some r =>
      let y := if r.2.2 < 100 then (if r.2.2 < 30 then r.2.2 + 2000 else r.2.2 + 1900)
               else r.2.2
      pad2 r.1 ++ "/" ++ pad2 r.2.1 ++ "/" ++ toString y
    | none => "NOT_FOUND"
  else if pyIn "name" fn then
    (if upperSpacePattern value then value else "NOT_FOUND")
  else if fn == "sex" then
    (if pyUpper value == "M" || pyUpper value == "F" then pyUpper value else "NOT_FOUND")
  else if pyIn "height" fn then
    (if heightPattern value then value else "NOT_FOUND")
  else if pyIn "eyes" fn then
    (if ["BLU", "BRO", "GRN", "HAZ", "BLK"].contains (pyUpper value) then pyUpper value
     else "NOT_FOUND")
  else if pyIn "license" fn && pyIn "number" fn then
    (if licensePattern value then value else "NOT_FOUND")
  else value

/-- One extracted-field record of `process_image` (lines 520-536). -/
structure FieldRec where
  field_name : String
  field_value : String
  corrected : Bool
deriving DecidableEq, Repr

/-- The record construction of `process_image` for one template field
(the `"- "` prefix strip of lines 525-527). -/
def buildFieldRec (extracted_dict : Dct) (fname : String) : FieldRec :=
  let v := (dget extracted_dict fname).getD "NOT_FOUND"
  let fname2 := if List.isPrefixOf "- ".toList fname.toList
                then String.mk (fname.toList.drop 2) else fname
  ⟨fname2, if v == "NOT_FOUND" then v else _validate_field fname2 v, false⟩

/-- The classification-dependent tail of `process_image`
(lines 505-538): abort on an unresolved type or an unsupported template
lookup, abort when too many extraction values are `NOT_FOUND`,
otherwise build one record per template field. -/
def classifyBranch (extracted_dict : Dct) : Option String →
    Except String (String × List FieldRec)
  | none => Except.error ("Unsupported document type: " ++ "None")
  | some t =>
    if (field_templates t).isEmpty then
      Except.error ("Unsupported document type: " ++ t)
    else
      if 7 * (field_templates t).length
          < 10 * (extracted_dict.filter (fun p => p.2 == "NOT_FOUND")).length then
        Except.error "Could not extract most fields. Please provide a clearer image."
      else
        Except.ok (t, (field_templates t).map (buildFieldRec extracted_dict))

/-- `process_image` from the point OCR finished (`document_processor.py`
lines 483-538): `best_text = none` models OCR producing nothing; the
recognition extraction result is the input `extracted_dict`.  Every
`raise ValueError` becomes `Except.error` with the source's message. -/
def process_after_ocr (best_text : Option String) (extracted_dict : Dct) :
    Except String (String × List FieldRec) :=
  match best_text with
  | none => Except.error "Failed to extract readable text from the document"
  | some text =>
    if (pyStrip text).toList.length < 50 then
      Except.error "Not enough text was extracted. Please provide a clearer image."
    else classifyBranch extracted_dict (get_gpt_classification text).1

theorem process_after_ocr_some (text : String) (d : Dct) :
    process_after_ocr (some text) d =
      (if (pyStrip text).toList.length < 50 then
        Except.error "Not enough text was extracted. Please provide a clearer image."
      else classifyBranch d (get_gpt_classification text).1) := rfl

theorem classStep_fst (tl : String) (acc : Option String × (Nat × Nat))
    (rule : String × List String) :
    (classStep tl acc rule).1 = acc.1 ∨ (classStep tl acc rule).1 = some rule.1 := by
  unfold classStep
  split
  · split
    · right; rfl
    · left; rfl
  · left; rfl

theorem classFold_fst (tl : String) (l : List (String × List String))
    (acc : Option String × (Nat × Nat)) :
    (l.foldl (classStep tl) acc).1 = acc.1
      ∨ ∃ r ∈ l, (l.foldl (classStep tl) acc).1 = some r.1 := by
  induction l generalizing acc with
  | nil => left; rfl
  | cons r rs ih =>
    rw [List.foldl_cons]
    rcases ih (classStep tl acc r) with h | h
    · rcases classStep_fst tl acc r with h2 | h2
      · left; rw [h, h2]
      · right; exact ⟨r, List.mem_cons_self _ _, by rw [h, h2]⟩
    · obtain ⟨q, hq, he⟩ := h
      right
      exact ⟨q, List.mem_cons_of_mem _ hq, he⟩

/-- The classifier only ever resolves to one of the three rule names. -/
theorem classification_known (text : String) (ty : String)
    (h : (get_gpt_classification text).1 = some ty) :
    ty = "drivers_license" ∨ ty = "passport" ∨ ty = "ead" := by
  rcases classFold_fst (pyLower text) classRules (none, (0, 1)) with h2 | h2
  · unfold get_gpt_classification at h
    rw [h] at h2
    cases h2
  · obtain ⟨r, hr, he⟩ := h2
    unfold get_gpt_classification at h
    rw [h] at he
    have hty : ty = r.1 := Option.some_inj.mp he
    have hmem : r.1 = "drivers_license" ∨ r.1 = "passport" ∨ r.1 = "ead" := by
      simp only [classRules, List.mem_cons, List.not_mem_nil, or_false] at hr
      rcases hr with rfl | rfl | rfl <;> simp
    rw [hty]
    exact hmem

theorem templates_nonempty_of_classified (text ty : String)
    (h : (get_gpt_classification text).1 = some ty) :
    (field_templates ty).isEmpty = false := by
  rcases classification_known text ty h with rfl | rfl | rfl <;> decide

/-- **C6, counterexample.** A 60-character OCR text with no
classification keywords passes the quality/conversion stage and the
text-length gate, yet processing aborts with "Unsupported document
type: None" — an unknown classification does abort without producing
any field data, contrary to the claim. -/
theorem process_abort_counterexample :
    process_after_ocr
        (some "xxxxxxxxxxxxxxxxxxxxxxxxxxxxxxxxxxxxxxxxxxxxxxxxxxxxxxxxxxxx")
        [("name", "JOHN SMITH")]
      = Except.error ("Unsupported document type: " ++ "None")
    ∧ 50 ≤ (pyStrip
        "xxxxxxxxxxxxxxxxxxxxxxxxxxxxxxxxxxxxxxxxxxxxxxxxxxxxxxxxxxxx").toList.length
    ∧ (get_gpt_classification
        "xxxxxxxxxxxxxxxxxxxxxxxxxxxxxxxxxxxxxxxxxxxxxxxxxxxxxxxxxxxx").1 = none := by
  refine ⟨by decide, by decide, by decide⟩

/-- **C6, amended.** After the quality/conversion stage, processing
aborts without producing field data in exactly these further cases: OCR
produced no usable text, the stripped text is shorter than 50
characters, classification resolved to no known type, or strictly more
than 70% of the extraction values are `NOT_FOUND` (exactly 70% — 7 of
the 10 driver's-license fields — does not abort).  In every other case
a non-empty best-effort field record list is returned, one record per
template field. -/
theorem process_abort_conditions (bt : Option String) (d : Dct) :
    ((∃ e, process_after_ocr bt d = Except.error e) ↔
      (bt = none
       ∨ ∃ t, bt = some t
          ∧ ((pyStrip t).toList.length < 50
             ∨ (get_gpt_classification t).1 = none
             ∨ ∃ ty, (get_gpt_classification t).1 = some ty
                ∧ 7 * (field_templates ty).length
                    < 10 * (d.filter (fun p => p.2 == "NOT_FOUND")).length)))
    ∧ (∀ ty fl, process_after_ocr bt d = Except.ok (ty, fl) →
        fl = (field_templates ty).map (buildFieldRec d) ∧ fl ≠ []) := by
  cases bt with
  | none =>
    refine ⟨⟨fun _ => Or.inl rfl, fun _ => ⟨_, rfl⟩⟩, ?_⟩
    intro ty fl h
    cases h
  | some text =>
    rw [process_after_ocr_some]
    by_cases hlen : (pyStrip text).toList.length < 50
    · rw [if_pos hlen]
      refine ⟨⟨fun _ => Or.inr ⟨text, rfl, Or.inl hlen⟩, fun _ => ⟨_, rfl⟩⟩, ?_⟩
      intro ty fl h
      cases h
    · rw [if_neg hlen]
      cases hcl : (get_gpt_classification text).1 with
      | none =>
        simp only [classifyBranch]
        refine ⟨⟨fun _ => Or.inr ⟨text, rfl, Or.inr (Or.inl hcl)⟩, fun _ => ⟨_, rfl⟩⟩, ?_⟩
        intro ty fl h
        cases h
      | some t =>
        simp only [classifyBranch]
        rw [templates_nonempty_of_classified text t hcl]
        simp only [Bool.false_eq_true, if_false]
        by_cases hnf : 7 * (field_templates t).length
            < 10 * (d.filter (fun p => p.2 == "NOT_FOUND")).length
        · rw [if_pos hnf]
          refine ⟨⟨fun _ => Or.inr ⟨text, rfl, Or.inr (Or.inr ⟨t, hcl, hnf⟩)⟩,
            fun _ => ⟨_, rfl⟩⟩, ?_⟩
          intro ty fl h
          cases h
        · rw [if_neg hnf]
          constructor
          · constructor
            · intro he
              obtain ⟨e, he⟩ := he
              cases he
            · intro hr
              rcases hr with hr | hr
              · cases hr
              · obtain ⟨t2, ht2, hr⟩ := hr
                have het : t2 = text := (Option.some_inj.mp ht2).symm
                subst het
                rcases hr with hr | hr | hr
                · exact absurd hr hlen
                · rw [hcl] at hr
                  cases hr
                · obtain ⟨ty2, hty, hthr⟩ := hr
                  rw [hcl] at hty
                  rw [← Option.some_inj.mp hty] at hthr
                  exact absurd hthr hnf
          · intro ty fl h
            injection h with h
            injection h with h1 h2
            constructor
            · rw [← h2, h1]
            · rw [← h2]
              intro hmap
              have hte : field_templates t = [] := List.map_eq_nil_iff.mp hmap
              have hne := templates_nonempty_of_classified text t hcl
              rw [hte] at hne
              cases hne

/-- **C6 amended, witness.** A classifiable passport text with a rich
extraction yields the full per-template record list. -/
theorem process_abort_conditions_witness :
    process_after_ocr
        (some "PASSPORT passport no UNITED STATES OF AMERICA type P xxxxxxxx")
        [("passport_number", "A123"), ("surname", "SMITH"), ("given_names", "JOHN"),
         ("nationality", "USA")]
      = Except.ok ("passport",
          (field_templates "passport").map
            (buildFieldRec
              [("passport_number", "A123"), ("surname", "SMITH"), ("given_names", "JOHN"),
               ("nationality", "USA")]))
    ∧ (field_templates "passport").map
        (buildFieldRec
          [("passport_number", "A123"), ("surname", "SMITH"), ("given_names", "JOHN"),
           ("nationality", "USA")]) ≠ [] := by
  have hok : process_after_ocr
      (some "PASSPORT passport no UNITED STATES OF AMERICA type P xxxxxxxx")
      [("passport_number", "A123"), ("surname", "SMITH"), ("given_names", "JOHN"),
       ("nationality", "USA")]
      = Except.ok ("passport",
          (field_templates "passport").map
            (buildFieldRec
              [("passport_number", "A123"), ("surname", "SMITH"), ("given_names", "JOHN"),
               ("nationality", "USA")])) := by decide
  have h := (process_abort_conditions
      (some "PASSPORT passport no UNITED STATES OF AMERICA type P xxxxxxxx")
      [("passport_number", "A123"), ("surname", "SMITH"), ("given_names", "JOHN"),
       ("nationality", "USA")]).2 "passport"
      ((field_templates "passport").map
        (buildFieldRec
          [("passport_number", "A123"), ("surname", "SMITH"), ("given_names", "JOHN"),
           ("nationality", "USA")])) hok
  exact ⟨hok, h.2⟩

end DocScanner
